import Mathlib

/-!
Verification of the llm-cost CLI (bin/llm-cost.mjs) against its specification.

The development shallowly embeds the pricing-resolution pipeline of the tool:
JavaScript numbers are idealised as rationals, with `none : Option ℚ`
standing for NaN where NaN can actually arise (price fields), and `JVal`
standing for a number-or-null field.  Stateful interaction (cache file on
disk, the network fetch) is embedded as an explicit environment value, and
`getModels` becomes a pure function of that environment which additionally
reports whether the network fetch was attempted.
-/

/-- A JavaScript value that is either `null`, `NaN`, or a finite number
(idealised as a rational).  Used for the optional pricing extras
(`cacheRead`, `cacheWrite`, `thinkingCost`), which the source initialises to
`null` when the raw field is falsy. -/
inductive JVal where
  | null : JVal
  | nan : JVal
  | num (q : ℚ) : JVal
deriving DecidableEq

/-- JavaScript truthiness of a number-or-null value: `null`, `NaN` and `0`
are falsy, every other number is truthy. -/
def JVal.truthy : JVal → Bool
  | .num q => decide (q ≠ 0)
  | _ => false

/-- A raw price field as it arrives from the aggregator: `absent` covers a
missing `pricing` object, a missing key, `null` and the empty string (all
falsy, so `field || "0"` turns them into `"0"`); `num q` is a string that
`parseFloat` reads as the decimal `q`; `junk` is a non-empty string that
`parseFloat` cannot read at all (its result is NaN). -/
inductive PriceField where
  | absent : PriceField
  | num (q : ℚ) : PriceField
  | junk : PriceField
deriving DecidableEq

/-- Embeds `parseFloat(field || "0")`, the per-token price as a JavaScript
number; `none` models NaN. -/
def parsePrice : PriceField → Option ℚ
  | .absent => some 0
  | .num q => some q
  | .junk => none

/-- Floor of a rational as an integer, written so that it evaluates by
kernel reduction (`Int.ediv` by the positive denominator). -/
def qfloor (q : ℚ) : ℤ := q.num.ediv q.den

/-- Embeds `parseFloat(x.toFixed(4))` on a finite number: round to four
decimal places, ties away from zero upwards (the ECMAScript `toFixed` rule
picks the larger candidate on a tie). -/
def round4 (q : ℚ) : ℚ := (qfloor (q * 10000 + 1/2) : ℚ) / 10000

/-- Embeds `parseFloat((perToken * 1_000_000).toFixed(4))`; NaN propagates. -/
def perMillion (p : Option ℚ) : Option ℚ := p.map (fun q => round4 (q * 1000000))

/-- Embeds the extra-pricing conversion
`raw ? parseFloat((parseFloat(raw) * 1_000_000).toFixed(4)) : null`:
a falsy raw string gives `null`, an unparseable one gives NaN
(note that the string "0" is truthy, so a zero price becomes the number 0,
not `null`). -/
def extraPrice : PriceField → JVal
  | .absent => .null
  | .num q => .num (round4 (q * 1000000))
  | .junk => .nan

/-- Character-list version of `String.startsWith` (structural, so that it
evaluates by kernel reduction). -/
def listStarts : List Char → List Char → Bool
  | [], _ => true
  | _ :: _, [] => false
  | a :: as, b :: bs => a = b && listStarts as bs

/-- `strStarts pat s` embeds `s.startsWith(pat)`. -/
def strStarts (pat s : String) : Bool := listStarts pat.data s.data

/-- Character-list substring search. -/
def listHas (pat : List Char) : List Char → Bool
  | [] => pat.isEmpty
  | b :: bs => listStarts pat (b :: bs) || listHas pat bs

/-- `strIncludes s pat` embeds `s.includes(pat)`. -/
def strIncludes (s pat : String) : Bool := listHas pat.data s.data

/-- Lower-casing of a string, embedding `String.prototype.toLowerCase` on
the ASCII range actually exercised by the tool. -/
def strLower (s : String) : String := ⟨s.data.map Char.toLower⟩

/-- Lexicographic strict order on character lists, the model used for
`String.prototype.localeCompare` returning a negative value. -/
def listLt : List Char → List Char → Bool
  | _, [] => false
  | [], _ :: _ => true
  | a :: as, b :: bs => if a < b then true else if a = b then listLt as bs else false

/-- `strLt a b` models `a.localeCompare(b) < 0`. -/
def strLt (a b : String) : Bool := listLt a.data b.data

/-- The static vendor-slug → display-name table `PROVIDER_MAP`. -/
def PROVIDER_MAP : List (String × String) :=
  [("openai", "OpenAI"), ("anthropic", "Anthropic"), ("google", "Google"),
   ("deepseek", "DeepSeek"), ("meta-llama", "Meta"), ("x-ai", "xAI"),
   ("mistralai", "Mistral"), ("cohere", "Cohere"), ("qwen", "Qwen"),
   ("amazon", "Amazon"), ("nvidia", "NVIDIA"), ("microsoft", "Microsoft"),
   ("perplexity", "Perplexity"), ("ai21", "AI21"), ("together", "Together"),
   ("fireworks", "Fireworks"), ("groq", "Groq")]

/-- `modelId.split("/")[0]`: the vendor slug before the first slash (the
whole string when there is no slash). -/
def idVendor (id : String) : String := ⟨id.data.takeWhile (· ≠ '/')⟩

/-- `modelId.split("/").pop()`: the component after the last slash. -/
def idTail (id : String) : String := ⟨(id.data.reverse.takeWhile (· ≠ '/')).reverse⟩

/-- Embeds `extractProvider`: table lookup with fallback to the raw slug. -/
def extractProvider (id : String) : String :=
  match PROVIDER_MAP.lookup (idVendor id) with
  | some p => p
  | none => idVendor id

/-- Embeds `cleanName`: strip a redundant `"<provider>: "` prefix. -/
def cleanName (name provider : String) : String :=
  if strStarts (provider ++ ": ") name then ⟨name.data.drop (provider.length + 2)⟩
  else name

/-- A raw aggregator record, with exactly the fields the normaliser reads.
Absent-or-falsy raw fields are collapsed into the value the source's
`||` defaults turn them into where that is behaviourally equivalent
(`context_length || 0`, `description || ""`, name falsy → id tail). -/
structure RawModel where
  id : String
  name : Option String := none
  prompt : PriceField := .absent
  completion : PriceField := .absent
  context_length : ℕ := 0
  max_completion_tokens : ℕ := 0
  input_modalities : Option (List String) := none
  output_modalities : Option (List String) := none
  supported_parameters : Option (List String) := none
  input_cache_read : PriceField := .absent
  input_cache_write : PriceField := .absent
  internal_reasoning : PriceField := .absent
  description : String := ""
deriving DecidableEq

/-- The canonical normalised model record.  `input`/`output` are JavaScript
numbers (so possibly NaN, modelled by `none`); the pricing extras are
number-or-null.  Boolean capability fields default to `false`, which is
behaviourally equivalent to the `undefined` the fallback table leaves in
the untyped source. -/
structure Model where
  id : String
  provider : String
  name : String
  input : Option ℚ := some 0
  output : Option ℚ := some 0
  context : ℕ := 0
  maxOutput : ℕ := 0
  vision : Bool := false
  audio : Bool := false
  video : Bool := false
  imageOut : Bool := false
  tools : Bool := false
  reasoning : Bool := false
  structuredOutput : Bool := false
  cacheRead : JVal := .null
  cacheWrite : JVal := .null
  thinkingCost : JVal := .null
  description : String := ""
deriving DecidableEq

/-- The model object pushed for one raw record inside `fetchLivePricing`. -/
def mkModel (m : RawModel) : Model :=
  let provider := extractProvider m.id
  let inputMods := m.input_modalities.getD ["text"]
  let outputMods := m.output_modalities.getD ["text"]
  let params := m.supported_parameters.getD []
  { id := m.id
    provider := provider
    name := cleanName (m.name.getD (idTail m.id)) provider
    input := perMillion (parsePrice m.prompt)
    output := perMillion (parsePrice m.completion)
    context := m.context_length
    maxOutput := m.max_completion_tokens
    vision := inputMods.contains "image"
    audio := inputMods.contains "audio"
    video := inputMods.contains "video"
    imageOut := outputMods.contains "image"
    tools := params.contains "tools"
    reasoning := params.contains "reasoning" || params.contains "include_reasoning"
    structuredOutput := params.contains "structured_outputs"
    cacheRead := extraPrice m.input_cache_read
    cacheWrite := extraPrice m.input_cache_write
    thinkingCost := extraPrice m.internal_reasoning
    description := ⟨m.description.data.take 200⟩ }

/-- One iteration of the normalisation loop of `fetchLivePricing`.  The
`seen` set of the source is exactly the set of ids of the models pushed so
far (`seen.add` and `models.push` always happen together), so it is
recovered here as `acc.map Model.id`.  The three `continue` conditions are
checked in source order: zero per-token prices, id already seen, excluded
`"openrouter/"` namespace. -/
def normAcc (acc : List Model) (m : RawModel) : List Model :=
  if parsePrice m.prompt = some 0 ∧ parsePrice m.completion = some 0 then acc
  else if (acc.map Model.id).contains m.id then acc
  else if strStarts "openrouter/" m.id then acc
  else acc ++ [mkModel m]

/-- The full normalisation pass over the raw record list. -/
def normalizeModels (data : List RawModel) : List Model :=
  data.foldl normAcc []

/-- The comparator `a.input - b.input ≤ 0` on JavaScript numbers, with the
ECMAScript rule that a NaN comparator result counts as 0 (elements compare
as equal): whenever either side is NaN both directions hold. -/
def jsNumLe (x y : Option ℚ) : Bool :=
  match x, y with
  | some a, some b => decide (a ≤ b)
  | _, _ => true

/-- The sort comparator of `fetchLivePricing`,
`a.provider.localeCompare(b.provider) || a.input - b.input`, read as a
"less or equal" test (comparator value ≤ 0). -/
def jsModelLe (a b : Model) : Bool :=
  if a.provider = b.provider then jsNumLe a.input b.input
  else strLt a.provider b.provider

/-- `models.sort(comparator)`: ECMAScript `Array.prototype.sort` is stable,
so it is embedded as a stable insertion sort driven by the comparator. -/
def sortModels (l : List Model) : List Model :=
  l.insertionSort (fun a b => jsModelLe a b = true)

/-- The pure part of `fetchLivePricing` applied to the decoded response
body: normalise, dedup, then sort. -/
def fetchPipeline (data : List RawModel) : List Model :=
  sortModels (normalizeModels data)

/-- The embedded static fallback table `FALLBACK_MODELS`. -/
def FALLBACK_MODELS : List Model :=
  [{ id := "openai/gpt-4.1", provider := "OpenAI", name := "GPT-4.1",
     input := some 2.00, output := some 8.00, context := 1047576, maxOutput := 32768,
     vision := true, tools := true, reasoning := false, structuredOutput := true },
   { id := "openai/gpt-4.1-mini", provider := "OpenAI", name := "GPT-4.1 Mini",
     input := some 0.40, output := some 1.60, context := 1047576, maxOutput := 32768,
     vision := true, tools := true, reasoning := false, structuredOutput := true },
   { id := "openai/gpt-4.1-nano", provider := "OpenAI", name := "GPT-4.1 Nano",
     input := some 0.10, output := some 0.40, context := 1047576, maxOutput := 32768,
     vision := true, tools := true, reasoning := false, structuredOutput := true },
   { id := "openai/o3", provider := "OpenAI", name := "o3",
     input := some 10.00, output := some 40.00, context := 200000, maxOutput := 100000,
     vision := true, tools := true, reasoning := true, structuredOutput := true },
   { id := "openai/o4-mini", provider := "OpenAI", name := "o4-mini",
     input := some 1.10, output := some 4.40, context := 200000, maxOutput := 100000,
     vision := true, tools := true, reasoning := true, structuredOutput := true },
   { id := "anthropic/claude-sonnet-4.5", provider := "Anthropic", name := "Claude Sonnet 4.5",
     input := some 3.00, output := some 15.00, context := 1000000, maxOutput := 64000,
     vision := true, tools := true, reasoning := true, structuredOutput := true },
   { id := "anthropic/claude-haiku-3.5", provider := "Anthropic", name := "Claude Haiku 3.5",
     input := some 0.80, output := some 4.00, context := 200000, maxOutput := 8192,
     vision := true, tools := true, reasoning := false, structuredOutput := false },
   { id := "google/gemini-2.5-pro", provider := "Google", name := "Gemini 2.5 Pro",
     input := some 1.25, output := some 10.00, context := 1048576, maxOutput := 65536,
     vision := true, tools := true, reasoning := true, structuredOutput := true },
   { id := "google/gemini-2.5-flash", provider := "Google", name := "Gemini 2.5 Flash",
     input := some 0.15, output := some 0.60, context := 1048576, maxOutput := 65536,
     vision := true, tools := true, reasoning := true, structuredOutput := true },
   { id := "deepseek/deepseek-chat", provider := "DeepSeek", name := "DeepSeek V3",
     input := some 0.27, output := some 1.10, context := 131072, maxOutput := 8192,
     vision := false, tools := true, reasoning := false, structuredOutput := false },
   { id := "deepseek/deepseek-r1", provider := "DeepSeek", name := "DeepSeek R1",
     input := some 0.55, output := some 2.19, context := 163840, maxOutput := 8192,
     vision := false, tools := false, reasoning := true, structuredOutput := false },
   { id := "x-ai/grok-3", provider := "xAI", name := "Grok 3",
     input := some 3.00, output := some 15.00, context := 131072, maxOutput := 8192,
     vision := false, tools := true, reasoning := false, structuredOutput := false },
   { id := "x-ai/grok-3-mini", provider := "xAI", name := "Grok 3 Mini",
     input := some 0.30, output := some 0.50, context := 131072, maxOutput := 8192,
     vision := false, tools := true, reasoning := true, structuredOutput := false },
   { id := "mistralai/mistral-large", provider := "Mistral", name := "Mistral Large",
     input := some 2.00, output := some 6.00, context := 128000, maxOutput := 8192,
     vision := false, tools := true, reasoning := false, structuredOutput := true },
   { id := "mistralai/mistral-small", provider := "Mistral", name := "Mistral Small",
     input := some 0.10, output := some 0.30, context := 128000, maxOutput := 8192,
     vision := false, tools := true, reasoning := false, structuredOutput := true }]

/-- The parsed content of the cache file: the `timestamp` and `models`
properties of the decoded JSON document.  `none` models an absent property
(JavaScript `undefined`): `Date.now() - undefined` is NaN, which fails the
strict `>` staleness test, and an `undefined` models value is falsy.
Besides objects this also covers the parsed documents on which property
access merely yields `undefined` — numbers, strings, booleans and arrays
are all `parsed ⟨none, none⟩`-like; only the document `null` throws on
property access and gets its own `CacheFile` constructor. -/
structure CacheContent where
  timestamp : Option ℤ := none
  models : Option (List Model) := none

/-- The state of the cache file on disk, as observed by one invocation.
`parsedNull` is a file containing the JSON document `null`: `JSON.parse`
succeeds, but any property access (`raw.timestamp`, `raw.models`) on the
`null` result throws a TypeError into the surrounding catch. -/
inductive CacheFile where
  | absent : CacheFile
  | unreadable : CacheFile
  | unparseable : CacheFile
  | parsedNull : CacheFile
  | parsed (c : CacheContent) : CacheFile

/-- Whether the cache file exists, can be read and `JSON.parse` succeeds
on its contents.  It does for the document `null`. -/
def CacheFile.parses : CacheFile → Bool
  | .parsed _ => true
  | .parsedNull => true
  | _ => false

/-- Whether the stale-read path can actually serve the file: the document
must parse and support the `raw.models` property access, which the
document `null` does not. -/
def CacheFile.staleServable : CacheFile → Bool
  | .parsed _ => true
  | _ => false

/-- `CACHE_TTL_MS = 6 * 60 * 60 * 1000`. -/
def CACHE_TTL_MS : ℤ := 21600000

/-- Embeds `readCache()`.  Every failure path (absent file, read error,
parse error, the TypeError thrown by `raw.timestamp` on a `null` document,
missing numeric timestamp comparison succeeding) collapses to `none`;
otherwise the value under the `models` key is returned, which is itself
`none` when that key is absent. -/
def readCache (now : ℤ) : CacheFile → Option (List Model)
  | .absent => none
  | .unreadable => none
  | .unparseable => none
  | .parsedNull => none
  | .parsed c =>
    match c.timestamp with
    | some t => if CACHE_TTL_MS < now - t then none else c.models
    | none => c.models

/-- The tier that supplied the data. -/
inductive Source where
  | live : Source
  | cache : Source
  | staleCache : Source
  | fallback : Source
deriving DecidableEq

/-- The resolver's output `{models, source}`.  `models` is an `Option`
because the stale-cache tier returns `raw.models` unvalidated, which is
`undefined` when the parsed file has no `models` key. -/
structure ResolvedSet where
  models : Option (List Model)
  source : Source

/-- The external world of one invocation: the clock, the cache file, and
the outcome of the network fetch (`none` covers network error, timeout,
non-2xx status and body parse error — every way `fetchLivePricing` can
throw). -/
structure Env where
  now : ℤ := 0
  file : CacheFile := .absent
  fetch : Option (List RawModel) := none

/-- Embeds `getModels(forceRefresh)`.  The second component records
whether the network fetch was attempted.  The function is total: every
failure tier is absorbed, so an answer is returned for every environment.
In the stale tier, only an object-like parsed document reaches the
`stale-cache` return; a `parsedNull` file throws at `raw.models` into the
same catch as a read or parse error and falls through to the fallback
return, as do the other non-`parsed` states. -/
def getModels (env : Env) (forceRefresh : Bool) : ResolvedSet × Bool :=
  match if forceRefresh then none else readCache env.now env.file with
  | some l => (⟨some l, .cache⟩, false)
  | none =>
    match env.fetch with
    | some data => (⟨some (fetchPipeline data), .live⟩, true)
    | none =>
      match env.file with
      | .parsed c => (⟨c.models, .staleCache⟩, true)
      | _ => (⟨some FALLBACK_MODELS, .fallback⟩, true)

/-- Addition of JavaScript numbers; NaN propagates. -/
def jsAdd (x y : Option ℚ) : Option ℚ :=
  match x, y with
  | some a, some b => some (a + b)
  | _, _ => none

/-- The cost breakdown returned by `calculateCost`. -/
structure CostBreakdown where
  inputCost : Option ℚ
  outputCost : Option ℚ
  totalCost : Option ℚ

/-- Embeds `calculateCost(model, inputTokens, outputTokens)`. -/
def calculateCost (m : Model) (inputTokens outputTokens : ℕ) : CostBreakdown :=
  let inputCost := m.input.map (fun p => (inputTokens : ℚ) / 1000000 * p)
  let outputCost := m.output.map (fun p => (outputTokens : ℚ) / 1000000 * p)
  { inputCost := inputCost, outputCost := outputCost,
    totalCost := jsAdd inputCost outputCost }

/-- The best-for comparator for cost-ranked categories:
`(a.input + a.output) - (b.input + b.output) ≤ 0`, with the NaN-is-equal
sort rule. -/
def costSumLe (a b : Model) : Bool :=
  jsNumLe (jsAdd a.input a.output) (jsAdd b.input b.output)

/-- The "Biggest context window" comparator `b.context - a.context ≤ 0`. -/
def ctxGe (a b : Model) : Bool := decide (b.context ≤ a.context)

/-- The "Biggest max output" comparator
`(b.maxOutput || 0) - (a.maxOutput || 0) ≤ 0`. -/
def maxOutGe (a b : Model) : Bool := decide (b.maxOutput ≤ a.maxOutput)

/-- One category of `printBestFor`: qualify with `f`, stable-sort the
qualifiers by `le`, pick the head.  The head is `none` exactly in the
"no result" case (`filtered.length === 0`). -/
def bestBy (le : Model → Model → Bool) (f : Model → Bool) (ms : List Model) :
    Option Model :=
  ((ms.filter f).insertionSort (fun a b => le a b = true)).head?

/-- The qualifying filters of the eight cost-ranked categories of
`printBestFor`, in display order: overall, vision, tools, reasoning,
JSON output, ≥128K context, ≥1M context, audio. -/
def costCategoryFilters : List (Model → Bool) :=
  [fun _ => true,
   fun m => m.vision,
   fun m => m.tools,
   fun m => m.reasoning,
   fun m => m.structuredOutput,
   fun m => decide (128000 ≤ m.context),
   fun m => decide (1000000 ≤ m.context),
   fun m => m.audio]

/-- The parsed command-line arguments, restricted to the fields that decide
control flow and filtering.  `minContext = 0` models the unset (or falsy)
`--context` value, matching the `if (args.minContext)` guard. -/
structure Args where
  version : Bool := false
  help : Bool := false
  list : Bool := false
  bestFor : Bool := false
  refresh : Bool := false
  json : Bool := false
  detail : Option String := none
  modelsFilter : Option (List String) := none
  providersFilter : Option (List String) := none
  vision : Bool := false
  tools : Bool := false
  reasoning : Bool := false
  minContext : ℕ := 0

/-- The provider filter applied inside `listModels` (list mode). -/
def listProviderFilter (ps : List String) (ms : List Model) : List Model :=
  ms.filter (fun m => ps.any (fun p => strIncludes (strLower m.provider) p))

/-- The AND-combined filter chain of `main` (compare mode). -/
def applyFilters (a : Args) (ms : List Model) : List Model :=
  let ms1 := match a.modelsFilter with
    | some fs =>
      ms.filter (fun m =>
        fs.any (fun f => strIncludes (strLower m.id) f || strIncludes (strLower m.name) f))
    | none => ms
  let ms2 := match a.providersFilter with
    | some ps => ms1.filter (fun m => ps.any (fun p => strIncludes (strLower m.provider) p))
    | none => ms1
  let ms3 := if a.vision then ms2.filter (fun m => m.vision) else ms2
  let ms4 := if a.tools then ms3.filter (fun m => m.tools) else ms3
  let ms5 := if a.reasoning then ms4.filter (fun m => m.reasoning) else ms4
  if a.minContext ≠ 0 then ms5.filter (fun m => decide (a.minContext ≤ m.context)) else ms5

/-- The `--detail` lookup: first model whose id or name contains the query
(case-insensitively). -/
def detailFind (q : String) (ms : List Model) : Option Model :=
  ms.find? (fun m => strIncludes (strLower m.id) q || strIncludes (strLower m.name) q)

/-- The process exit code of `main` as a function of the parsed arguments
and the resolved model list, following the dispatch order of the source:
version, help, list, best-for, detail, then the filtered compare mode.
`process.exit(1)` is reached only on a failed detail lookup or an empty
post-filter list in compare mode; every other path returns normally
(exit 0). -/
def mainExitCode (a : Args) (ms : List Model) : ℕ :=
  if a.version then 0
  else if a.help then 0
  else if a.list then 0
  else if a.bestFor then 0
  else
    match a.detail with
    | some q => if (detailFind q ms).isSome then 0 else 1
    | none => if (applyFilters a ms).isEmpty then 1 else 0

/-- Embeds `parseFloat(x.toFixed(6))` on a finite number. -/
def round6 (q : ℚ) : ℚ := (qfloor (q * 1000000 + 1/2) : ℚ) / 1000000

/-- Embeds `parseFloat(x.toFixed(2))` on a finite number. -/
def round2 (q : ℚ) : ℚ := (qfloor (q * 100 + 1/2) : ℚ) / 100

/-- The value of a spread `...(v ? { field: v } : {})`: the field is
present exactly when the number-or-null `v` is truthy. -/
def jvalIfTruthy : JVal → Option ℚ
  | .num q => if q = 0 then none else some q
  | _ => none

/-- One element of the `models` array of the `--json` output.  An `Option`
field set to `none` models a key that is omitted from the serialised
object (`undefined` values and conditional spreads are both dropped by
`JSON.stringify`). -/
structure JsonModel where
  id : String
  provider : String
  name : String
  input_per_1m : Option ℚ
  output_per_1m : Option ℚ
  context_window : ℕ
  max_output : Option ℕ
  estimated_cost : Option ℚ
  monthly_cost : Option ℚ
  cap_vision : Bool
  cap_audio : Bool
  cap_tools : Bool
  cap_reasoning : Bool
  cap_structured : Bool
  cache_read_per_1m : Option ℚ
  cache_write_per_1m : Option ℚ
  thinking_per_1m : Option ℚ
deriving DecidableEq

/-- The JSON model entry built in `main` for one displayed model:
`max_output: m.maxOutput || undefined` omits the key when `maxOutput` is 0,
and each of the three conditional pricing spreads omits its key when the
underlying value is falsy (null, NaN or 0).  `monthly` is the
`--monthly` request count, 0 when unset. -/
def jsonModel (inputTokens outputTokens monthly : ℕ) (m : Model) : JsonModel :=
  let tc := (calculateCost m inputTokens outputTokens).totalCost
  { id := m.id
    provider := m.provider
    name := m.name
    input_per_1m := m.input
    output_per_1m := m.output
    context_window := m.context
    max_output := if m.maxOutput = 0 then none else some m.maxOutput
    estimated_cost := tc.map round6
    monthly_cost := if monthly = 0 then none
      else tc.map (fun t => round2 (t * (monthly : ℚ)))
    cap_vision := m.vision
    cap_audio := m.audio
    cap_tools := m.tools
    cap_reasoning := m.reasoning
    cap_structured := m.structuredOutput
    cache_read_per_1m := jvalIfTruthy m.cacheRead
    cache_write_per_1m := jvalIfTruthy m.cacheWrite
    thinking_per_1m := jvalIfTruthy m.thinkingCost }

/-- Total comparison on `Option ℚ` that agrees with `jsNumLe` whenever both
sides are numeric; used to transfer sortedness facts, since the NaN-is-equal
comparator is not transitive in the presence of NaN. -/
def optLe (x y : Option ℚ) : Bool :=
  match x, y with
  | none, _ => true
  | some _, none => false
  | some a, some b => decide (a ≤ b)

/-- The two-key order "provider ascending, then input ascending". -/
def cleanModelLe (a b : Model) : Bool :=
  if a.provider = b.provider then optLe a.input b.input
  else strLt a.provider b.provider

/-- The total variant of the best-for cost comparator. -/
def costCleanLe (a b : Model) : Bool :=
  optLe (jsAdd a.input a.output) (jsAdd b.input b.output)

theorem listLt_irrefl : ∀ (as : List Char), listLt as as = false := by
  intro as
  induction as with
  | nil => rfl
  | cons a as ih =>
    simp only [listLt]
    rw [if_neg (lt_irrefl a)]
    simpa using ih

theorem listLt_trans : ∀ {as bs cs : List Char},
    listLt as bs = true → listLt bs cs = true → listLt as cs = true := by
  intro as
  induction as with
  | nil =>
    intro bs cs h1 h2
    cases bs with
    | nil => simp [listLt] at h1
    | cons b bs =>
      cases cs with
      | nil => simp [listLt] at h2
      | cons c cs => simp [listLt]
  | cons a as ih =>
    intro bs cs h1 h2
    cases bs with
    | nil => simp [listLt] at h1
    | cons b bs =>
      cases cs with
      | nil => simp [listLt] at h2
      | cons c cs =>
        simp only [listLt] at h1 h2 ⊢
        by_cases hab : a < b
        · by_cases hbc : b < c
          · rw [if_pos (lt_trans hab hbc)]
          · rw [if_neg hbc] at h2
            by_cases hbc' : b = c
            · subst hbc'
              rw [if_pos hab]
            · rw [if_neg hbc'] at h2
              cases h2
        · rw [if_neg hab] at h1
          by_cases hab' : a = b
          · subst hab'
            rw [if_pos rfl] at h1
            by_cases hac : a < c
            · rw [if_pos hac]
            · rw [if_neg hac] at h2 ⊢
              by_cases hac' : a = c
              · subst hac'
                rw [if_pos rfl] at h2 ⊢
                exact ih h1 h2
              · rw [if_neg hac'] at h2
                cases h2
          · rw [if_neg hab'] at h1
            cases h1

theorem listLt_or : ∀ (as bs : List Char),
    as = bs ∨ listLt as bs = true ∨ listLt bs as = true := by
  intro as
  induction as with
  | nil =>
    intro bs
    cases bs with
    | nil => exact Or.inl rfl
    | cons b bs => exact Or.inr (Or.inl (by simp [listLt]))
  | cons a as ih =>
    intro bs
    cases bs with
    | nil => exact Or.inr (Or.inr (by simp [listLt]))
    | cons b bs =>
      rcases lt_trichotomy a b with h | h | h
      · exact Or.inr (Or.inl (by simp only [listLt]; rw [if_pos h]))
      · subst h
        rcases ih bs with h2 | h2 | h2
        · exact Or.inl (by rw [h2])
        · refine Or.inr (Or.inl ?h1)
          simp only [listLt]
          rw [if_neg (lt_irrefl a)]
          simpa using h2
        · refine Or.inr (Or.inr ?h2)
          simp only [listLt]
          rw [if_neg (lt_irrefl a)]
          simpa using h2
      · exact Or.inr (Or.inr (by simp only [listLt]; rw [if_pos h]))

theorem strLt_irrefl (a : String) : strLt a a = false :=
  listLt_irrefl a.data

theorem strLt_trans {a b c : String} (h1 : strLt a b = true) (h2 : strLt b c = true) :
    strLt a c = true :=
  listLt_trans h1 h2

theorem strLt_or (a b : String) : a = b ∨ strLt a b = true ∨ strLt b a = true := by
  rcases listLt_or a.data b.data with h | h | h
  · exact Or.inl (String.ext h)
  · exact Or.inr (Or.inl h)
  · exact Or.inr (Or.inr h)

theorem optLe_refl (x : Option ℚ) : optLe x x = true := by
  cases x <;> simp [optLe]

theorem optLe_trans {x y z : Option ℚ} (h1 : optLe x y = true) (h2 : optLe y z = true) :
    optLe x z = true := by
  cases x with
  | none => simp [optLe]
  | some a =>
    cases y with
    | none => simp [optLe] at h1
    | some b =>
      cases z with
      | none => simp [optLe] at h2
      | some c =>
        simp only [optLe, decide_eq_true_eq] at h1 h2 ⊢
        exact le_trans h1 h2

theorem optLe_total (x y : Option ℚ) : optLe x y = true ∨ optLe y x = true := by
  cases x with
  | none => exact Or.inl (by simp [optLe])
  | some a =>
    cases y with
    | none => exact Or.inr (by simp [optLe])
    | some b =>
      simp only [optLe, decide_eq_true_eq]
      exact le_total a b

theorem cleanModelLe_trans {a b c : Model} (h1 : cleanModelLe a b = true)
    (h2 : cleanModelLe b c = true) : cleanModelLe a c = true := by
  simp only [cleanModelLe] at h1 h2 ⊢
  by_cases hab : a.provider = b.provider
  · rw [if_pos hab] at h1
    by_cases hbc : b.provider = c.provider
    · rw [if_pos hbc] at h2
      rw [if_pos (hab.trans hbc)]
      exact optLe_trans h1 h2
    · rw [if_neg hbc] at h2
      rw [if_neg (fun h => hbc (hab ▸ h)), hab]
      exact h2
  · rw [if_neg hab] at h1
    by_cases hbc : b.provider = c.provider
    · rw [if_neg (fun h => hab (h.trans hbc.symm)), ← hbc]
      exact h1
    · rw [if_neg hbc] at h2
      have hlt := strLt_trans h1 h2
      have hac : a.provider ≠ c.provider := by
        intro h
        rw [h] at hlt
        rw [strLt_irrefl] at hlt
        cases hlt
      rw [if_neg hac]
      exact hlt

theorem cleanModelLe_total (a b : Model) :
    cleanModelLe a b = true ∨ cleanModelLe b a = true := by
  simp only [cleanModelLe]
  by_cases hab : a.provider = b.provider
  · rw [if_pos hab, if_pos hab.symm]
    exact optLe_total a.input b.input
  · rw [if_neg hab, if_neg (fun h => hab h.symm)]
    rcases strLt_or a.provider b.provider with h | h | h
    · exact absurd h hab
    · exact Or.inl h
    · exact Or.inr h

instance : IsTrans Model (fun a b => cleanModelLe a b = true) :=
  ⟨fun _ _ _ => cleanModelLe_trans⟩

instance : IsTotal Model (fun a b => cleanModelLe a b = true) :=
  ⟨cleanModelLe_total⟩

theorem costCleanLe_trans {a b c : Model} (h1 : costCleanLe a b = true)
    (h2 : costCleanLe b c = true) : costCleanLe a c = true :=
  optLe_trans h1 h2

instance : IsTrans Model (fun a b => costCleanLe a b = true) :=
  ⟨fun _ _ _ => costCleanLe_trans⟩

instance : IsTotal Model (fun a b => costCleanLe a b = true) :=
  ⟨fun _ _ => optLe_total _ _⟩

instance : IsTrans Model (fun a b => ctxGe a b = true) := by
  refine ⟨fun a b c h1 h2 => ?h⟩
  simp only [ctxGe, decide_eq_true_eq] at h1 h2 ⊢
  exact le_trans h2 h1

instance : IsTotal Model (fun a b => ctxGe a b = true) := by
  refine ⟨fun a b => ?h⟩
  simp only [ctxGe, decide_eq_true_eq]
  exact le_total b.context a.context

instance : IsTrans Model (fun a b => maxOutGe a b = true) := by
  refine ⟨fun a b c h1 h2 => ?h⟩
  simp only [maxOutGe, decide_eq_true_eq] at h1 h2 ⊢
  exact le_trans h2 h1

instance : IsTotal Model (fun a b => maxOutGe a b = true) := by
  refine ⟨fun a b => ?h⟩
  simp only [maxOutGe, decide_eq_true_eq]
  exact le_total b.maxOutput a.maxOutput

theorem orderedInsert_congr {α : Type} {r s : α → α → Prop}
    [DecidableRel r] [DecidableRel s] (a : α) (l : List α)
    (h : ∀ b ∈ l, (r a b ↔ s a b)) :
    l.orderedInsert r a = l.orderedInsert s a := by
  induction l with
  | nil => rfl
  | cons b bs ih =>
    simp only [List.orderedInsert]
    by_cases hb : r a b
    · rw [if_pos hb, if_pos ((h b (List.mem_cons_self b bs)).1 hb)]
    · rw [if_neg hb, if_neg (fun hs => hb ((h b (List.mem_cons_self b bs)).2 hs)),
        ih (fun c hc => h c (List.mem_cons_of_mem b hc))]

theorem insertionSort_congr {α : Type} {r s : α → α → Prop}
    [DecidableRel r] [DecidableRel s] (l : List α)
    (h : ∀ a ∈ l, ∀ b ∈ l, (r a b ↔ s a b)) :
    l.insertionSort r = l.insertionSort s := by
  induction l with
  | nil => rfl
  | cons a as ih =>
    simp only [List.insertionSort]
    rw [ih (fun x hx y hy =>
      h x (List.mem_cons_of_mem a hx) y (List.mem_cons_of_mem a hy))]
    exact orderedInsert_congr a _ (fun b hb =>
      h a (List.mem_cons_self a as) b
        (List.mem_cons_of_mem a ((List.mem_insertionSort s).1 hb)))

theorem insertionSort_filter_stable {α : Type} {r : α → α → Prop}
    [DecidableRel r] (p : α → Bool) (l : List α)
    (hp : ∀ a ∈ l, ∀ b ∈ l, p a = true → p b = true → r a b) :
    (l.insertionSort r).filter p = l.filter p := by
  have hpair : (l.filter p).Pairwise r :=
    List.pairwise_of_forall_mem_list (fun a ha b hb =>
      hp a (List.mem_of_mem_filter ha) b (List.mem_of_mem_filter hb)
        (List.of_mem_filter ha) (List.of_mem_filter hb))
  have hsub : (l.filter p).Sublist (l.insertionSort r) :=
    List.sublist_insertionSort hpair (List.filter_sublist l)
  have h2 : (l.filter p).Sublist ((l.insertionSort r).filter p) := by
    have h3 := hsub.filter p
    rwa [List.filter_eq_self.2 (fun a ha => List.of_mem_filter ha)] at h3
  have hlen : (l.filter p).length = ((l.insertionSort r).filter p).length :=
    (((List.perm_insertionSort r l).filter p).length_eq).symm
  exact (h2.eq_of_length hlen).symm

theorem insertionSort_head_min {α : Type} {r : α → α → Prop}
    [DecidableRel r] [IsTotal α r] [IsTrans α r]
    {l : List α} {b : α} (h : (l.insertionSort r).head? = some b) :
    b ∈ l ∧ ∀ x ∈ l, x = b ∨ r b x := by
  obtain ⟨t, ht⟩ : ∃ t, l.insertionSort r = b :: t := by
    cases hs : l.insertionSort r with
    | nil => rw [hs] at h; cases h
    | cons c t =>
      rw [hs] at h
      exact ⟨t, by cases h; rfl⟩
  have hperm := List.perm_insertionSort r l
  refine ⟨hperm.mem_iff.1 (by rw [ht]; exact List.mem_cons_self b t), ?hmin⟩
  intro x hx
  have hx2 : x ∈ b :: t := by
    rw [← ht]
    exact hperm.mem_iff.2 hx
  rcases List.mem_cons.1 hx2 with h1 | h1
  · exact Or.inl h1
  · refine Or.inr ?hrel
    have hsorted := List.sorted_insertionSort r l
    rw [ht] at hsorted
    exact List.rel_of_sorted_cons hsorted x h1

/-- C1: whenever the live fetch fails (`env.fetch = none`) and no cache
file exists on disk, `resolve`/`getModels` returns the fixed static
fallback dataset tagged `source = "fallback"`; and, the embedding being a
total function whose every tier is absorbed into a returned value, every
invocation yields a `ResolvedSet` whose source is one of the four tiers —
the resolver never raises. -/
theorem c1_resolver_fallback_total :
    (∀ (env : Env) (forceRefresh : Bool), env.fetch = none → env.file = .absent →
      getModels env forceRefresh = (⟨some FALLBACK_MODELS, .fallback⟩, true))
    ∧ (∀ (env : Env) (forceRefresh : Bool),
        (getModels env forceRefresh).1.source = .live ∨
        (getModels env forceRefresh).1.source = .cache ∨
        (getModels env forceRefresh).1.source = .staleCache ∨
        (getModels env forceRefresh).1.source = .fallback) := by
  constructor
  · intro env forceRefresh h1 h2
    cases forceRefresh <;> simp [getModels, readCache, h1, h2]
  · intro env forceRefresh
    simp only [getModels]
    split
    · simp
    · split
      · simp
      · split <;> simp

/-- Witness for C1 at a concrete environment: fetch failed, no cache file. -/
theorem c1_resolver_fallback_total_witness :
    getModels { now := 0, file := .absent, fetch := none } true
      = (⟨some FALLBACK_MODELS, .fallback⟩, true) :=
  c1_resolver_fallback_total.1 { now := 0, file := .absent, fetch := none } true rfl rfl

/-- C2: with `forceRefresh = false` and a cache file that exists, parses to
a snapshot `{timestamp, models}` and satisfies `now - timestamp ≤ 6h`, the
resolver returns `(cache.models, "cache")` for every possible fetch outcome
and without attempting the network fetch (second component `false`); and
`readCache` returns `none` whenever the file is absent, unreadable,
unparseable, or `now - timestamp` exceeds the 6-hour TTL. -/
theorem c2_fresh_cache_and_read_none :
    (∀ (now t : ℤ) (l : List Model) (fetch : Option (List RawModel)),
      now - t ≤ CACHE_TTL_MS →
      getModels { now := now, file := .parsed { timestamp := some t, models := some l },
                  fetch := fetch } false
        = (⟨some l, .cache⟩, false))
    ∧ (∀ now : ℤ, readCache now .absent = none)
    ∧ (∀ now : ℤ, readCache now .unreadable = none)
    ∧ (∀ now : ℤ, readCache now .unparseable = none)
    ∧ (∀ (now t : ℤ) (ms : Option (List Model)), CACHE_TTL_MS < now - t →
        readCache now (.parsed { timestamp := some t, models := ms }) = none) := by
  refine ⟨?fresh, fun _ => rfl, fun _ => rfl, fun _ => rfl, ?stale⟩
  · intro now t l fetch h
    simp [getModels, readCache, if_neg (not_lt.2 h)]
  · intro now t ms h
    simp [readCache, if_pos h]

/-- Witness for C2: a fresh snapshot is served from cache without a fetch,
and an expired snapshot is invisible to `readCache`. -/
theorem c2_fresh_cache_and_read_none_witness :
    (getModels { now := 5, file := .parsed { timestamp := some 0, models := some [] },
                 fetch := none } false
      = (⟨some [], .cache⟩, false))
    ∧ readCache 21600001 (.parsed { timestamp := some 0, models := some [] }) = none :=
  ⟨c2_fresh_cache_and_read_none.1 5 0 [] none (by decide),
   c2_fresh_cache_and_read_none.2.2.2.2 21600001 0 (some []) (by decide)⟩

/-- Claim C9 as stated: once the fetch has been attempted and has failed,
the resolver lands on the fallback tier exactly when the cache file does
not exist or its contents fail to parse as JSON, and any file that parses
— regardless of shape — is returned as `source = "stale-cache"` with
`models` equal to whatever sits under its `models` key. -/
def claim9Statement : Prop :=
  ∀ (env : Env) (forceRefresh : Bool), env.fetch = none →
    (getModels env forceRefresh).2 = true →
    (((getModels env forceRefresh).1.source = .fallback) ↔ env.file.parses = false)
    ∧ (∀ c, env.file = .parsed c →
        (getModels env forceRefresh).1 = ⟨c.models, .staleCache⟩)

/-- Counterexample to C9: a cache file containing the JSON document `null`
parses (`JSON.parse` succeeds), but the stale path then throws a TypeError
at `raw.models` into its catch and the resolver returns the fallback
dataset — a parsing file that is not served as stale-cache. -/
theorem c9_counterexample : ¬ claim9Statement := by
  intro h
  have h2 := (h { file := .parsedNull, fetch := none } false rfl rfl).1
  have h3 : (CacheFile.parsedNull).parses = false := h2.1 rfl
  cases h3

/-- C9 amended: after an attempted-and-failed fetch, the resolver lands on
the fallback tier exactly when the cache file is not a parsed object-like
document — absent, unreadable, unparseable, or parsing to the JSON
document `null`, whose property access throws into the same catch; any
file parsing to an object-like document is returned as
`source = "stale-cache"` with `models` equal to whatever sits under its
`models` key (possibly absent), without any validation. -/
theorem c9_stale_cache_unvalidated :
    ∀ (env : Env) (forceRefresh : Bool), env.fetch = none →
      (getModels env forceRefresh).2 = true →
      (((getModels env forceRefresh).1.source = .fallback)
        ↔ env.file.staleServable = false)
      ∧ (∀ c, env.file = .parsed c →
          (getModels env forceRefresh).1 = ⟨c.models, .staleCache⟩) := by
  intro env forceRefresh hf ha
  by_cases hc : (if forceRefresh then none else readCache env.now env.file) = none
  · cases hfile : env.file with
    | parsed c =>
      rw [hfile] at hc
      constructor
      · simp [getModels, hc, hf, hfile, CacheFile.staleServable]
      · intro c2 hc2
        cases hc2
        simp [getModels, hc, hf, hfile]
    | absent =>
      rw [hfile] at hc
      refine ⟨by simp [getModels, hc, hf, hfile, CacheFile.staleServable], ?noparse1⟩
      intro c2 hc2
      cases hc2
    | unreadable =>
      rw [hfile] at hc
      refine ⟨by simp [getModels, hc, hf, hfile, CacheFile.staleServable], ?noparse2⟩
      intro c2 hc2
      cases hc2
    | unparseable =>
      rw [hfile] at hc
      refine ⟨by simp [getModels, hc, hf, hfile, CacheFile.staleServable], ?noparse3⟩
      intro c2 hc2
      cases hc2
    | parsedNull =>
      rw [hfile] at hc
      refine ⟨by simp [getModels, hc, hf, hfile, CacheFile.staleServable], ?noparse4⟩
      intro c2 hc2
      cases hc2
  · exfalso
    obtain ⟨l, hl⟩ := Option.ne_none_iff_exists.1 hc
    rw [show (getModels env forceRefresh).2 = false from by
      simp [getModels, ← hl]] at ha
    cases ha

/-- Witness for C9 amended at a concrete environment: a cache file holding
the JSON document `null` after a failed fetch lands on the fallback tier. -/
theorem c9_stale_cache_unvalidated_witness :
    (((getModels { file := .parsedNull, fetch := none } false).1.source = .fallback)
      ↔ (CacheFile.parsedNull).staleServable = false)
    ∧ (∀ c, CacheFile.parsedNull = .parsed c →
        (getModels { file := .parsedNull, fetch := none } false).1
          = ⟨c.models, .staleCache⟩) :=
  c9_stale_cache_unvalidated { file := .parsedNull, fetch := none } false rfl rfl

/-- C5: the cost calculator is a pure total function of the model and the
two token counts; for every model with numeric prices (the data model's
non-negative decimals), `cost(m, 0, 0).totalCost = 0`, each component cost
is `tokens / 1_000_000 * pricePerMillion`, and the total cost is linear:
`cost(m, x, y).totalCost = cost(m, x, 0).totalCost + cost(m, 0, y).totalCost`. -/
theorem c5_cost_zero_and_linear :
    ∀ (m : Model) (i o : ℚ), m.input = some i → m.output = some o →
      ((calculateCost m 0 0).totalCost = some 0)
      ∧ (∀ x y : ℕ,
          (calculateCost m x y).inputCost = some ((x : ℚ) / 1000000 * i)
          ∧ (calculateCost m x y).outputCost = some ((y : ℚ) / 1000000 * o)
          ∧ jsAdd ((calculateCost m x 0).totalCost) ((calculateCost m 0 y).totalCost)
              = (calculateCost m x y).totalCost) := by
  intro m i o hi ho
  constructor
  · simp [calculateCost, hi, ho, jsAdd]
  · intro x y
    refine ⟨by simp [calculateCost, hi], by simp [calculateCost, ho], ?lin⟩
    simp [calculateCost, hi, ho, jsAdd]

/-- Witness for C5 at a concrete model with numeric prices. -/
theorem c5_cost_zero_and_linear_witness :
    ((calculateCost { id := "a/m", provider := "A", name := "m",
                      input := some 2, output := some 3 } 0 0).totalCost = some 0)
    ∧ (∀ x y : ℕ,
        (calculateCost { id := "a/m", provider := "A", name := "m",
                         input := some 2, output := some 3 } x y).inputCost
            = some ((x : ℚ) / 1000000 * 2)
        ∧ (calculateCost { id := "a/m", provider := "A", name := "m",
                           input := some 2, output := some 3 } x y).outputCost
            = some ((y : ℚ) / 1000000 * 3)
        ∧ jsAdd ((calculateCost { id := "a/m", provider := "A", name := "m",
                                  input := some 2, output := some 3 } x 0).totalCost)
                ((calculateCost { id := "a/m", provider := "A", name := "m",
                                  input := some 2, output := some 3 } 0 y).totalCost)
            = (calculateCost { id := "a/m", provider := "A", name := "m",
                               input := some 2, output := some 3 } x y).totalCost) :=
  c5_cost_zero_and_linear _ 2 3 rfl rfl

/-- C10: in the JSON output, `max_output`, `cache_read_per_1m`,
`cache_write_per_1m` and `thinking_per_1m` are omitted not only for
null/NaN (unknown) values but also whenever the value is 0, so a zero
value is indistinguishable from "not offered" in the JSON even though the
`Model` record itself distinguishes them. -/
theorem c10_json_zero_vs_null_omission :
    ∀ (m : Model) (it ot mo : ℕ),
      ((jsonModel it ot mo m).max_output = none ↔ m.maxOutput = 0)
      ∧ ((jsonModel it ot mo m).cache_read_per_1m = none ↔
          m.cacheRead = .null ∨ m.cacheRead = .nan ∨ m.cacheRead = .num 0)
      ∧ ((jsonModel it ot mo m).cache_write_per_1m = none ↔
          m.cacheWrite = .null ∨ m.cacheWrite = .nan ∨ m.cacheWrite = .num 0)
      ∧ ((jsonModel it ot mo m).thinking_per_1m = none ↔
          m.thinkingCost = .null ∨ m.thinkingCost = .nan ∨ m.thinkingCost = .num 0)
      ∧ jsonModel it ot mo { m with cacheRead := .num 0 }
          = jsonModel it ot mo { m with cacheRead := .null }
      ∧ ({ m with cacheRead := JVal.num 0 } : Model) ≠ { m with cacheRead := JVal.null } := by
  intro m it ot mo
  refine ⟨?hmax, ?hcr, ?hcw, ?htk, ?hind, ?hdist⟩
  · simp only [jsonModel]
    split_ifs with h <;> simp [h]
  · cases hcr : m.cacheRead with
    | null => simp [jsonModel, jvalIfTruthy, hcr]
    | nan => simp [jsonModel, jvalIfTruthy, hcr]
    | num q =>
      simp only [jsonModel, jvalIfTruthy, hcr]
      split_ifs with h <;> simp [h]
  · cases hcw : m.cacheWrite with
    | null => simp [jsonModel, jvalIfTruthy, hcw]
    | nan => simp [jsonModel, jvalIfTruthy, hcw]
    | num q =>
      simp only [jsonModel, jvalIfTruthy, hcw]
      split_ifs with h <;> simp [h]
  · cases htk : m.thinkingCost with
    | null => simp [jsonModel, jvalIfTruthy, htk]
    | nan => simp [jsonModel, jvalIfTruthy, htk]
    | num q =>
      simp only [jsonModel, jvalIfTruthy, htk]
      split_ifs with h <;> simp [h]
  · simp [jsonModel, jvalIfTruthy, calculateCost]
  · intro h
    have h2 := congrArg Model.cacheRead h
    simp at h2

/-- Claim C8 as stated, instantiated at list-mode invocations that carry a
provider filter: such an invocation requests a filter (the one `listModels`
applies), so the claim — non-zero exit exactly when a requested filter
matches zero models, including filters applied in list mode — asserts this
equivalence. -/
def claim8Statement : Prop :=
  ∀ (a : Args) (ms : List Model) (ps : List String),
    a.version = false → a.help = false → a.list = true →
    a.providersFilter = some ps →
    (mainExitCode a ms ≠ 0 ↔ listProviderFilter ps ms = [])

/-- Counterexample to C8: in list mode with a provider filter matching no
model, `listModels` prints an empty listing and `main` returns normally,
so the process exits 0 — the claim would require a non-zero exit. -/
theorem c8_counterexample : ¬ claim8Statement := by
  intro h
  have h2 := h { list := true, providersFilter := some ["zzz"] }
      [{ id := "openai/gpt-4.1", provider := "OpenAI", name := "GPT-4.1" }]
      ["zzz"] rfl rfl rfl rfl
  exact h2.2 (by decide) (by decide)

/-- C8 amended: the process exits non-zero exactly when the invocation is
in detail or compare mode (not version, help, list or best-for) and the
detail lookup or the post-filter model list comes up empty; list mode
always exits zero, even when its provider filter matches no model, and
compare mode exits non-zero on an empty list even when no filter was
requested. -/
theorem c8_exit_code_characterisation :
    ∀ (a : Args) (ms : List Model),
      mainExitCode a ms ≠ 0 ↔
        (a.version = false ∧ a.help = false ∧ a.list = false ∧ a.bestFor = false ∧
          match a.detail with
          | some q => detailFind q ms = none
          | none => applyFilters a ms = []) := by
  intro a ms
  simp only [mainExitCode]
  by_cases hv : a.version
  · simp [hv]
  · by_cases hh : a.help
    · simp [hv, hh]
    · by_cases hl : a.list
      · simp [hv, hh, hl]
      · by_cases hb : a.bestFor
        · simp [hv, hh, hl, hb]
        · cases hd : a.detail with
          | some q =>
            cases hfind : detailFind q ms with
            | some mm => simp [hv, hh, hl, hb, hd, hfind]
            | none => simp [hv, hh, hl, hb, hd, hfind]
          | none =>
            by_cases hemp : (applyFilters a ms).isEmpty
            · simp [hv, hh, hl, hb, hd, hemp, List.isEmpty_iff.1 hemp]
            · have hne : ¬ applyFilters a ms = [] :=
                fun h2 => hemp (List.isEmpty_iff.2 h2)
              simp [hv, hh, hl, hb, hd, hemp, hne]

/-- A raw record whose per-token prices are both zero: skipped, and its id
is never added to the seen set. -/
def cRec1 : RawModel := { id := "a/x" }

/-- A later raw record with the same id as `cRec1` but a real price. -/
def cRec2 : RawModel := { id := "a/x", prompt := .num 1 }

/-- The skip condition asserted by claim C3: both computed per-million
prices are zero, or the id occurred earlier in the batch, or the excluded
vendor-slug prefix. -/
def specSkipC3 (prior : List RawModel) (r : RawModel) : Prop :=
  (perMillion (parsePrice r.prompt) = some 0 ∧ perMillion (parsePrice r.completion) = some 0)
  ∨ (∃ p ∈ prior, p.id = r.id)
  ∨ strStarts "openrouter/" r.id = true

/-- Claim C3 as stated: a record emits nothing (the normalised batch is
unchanged by it) exactly when the skip condition of the claim holds. -/
def claim3Statement : Prop :=
  ∀ (data : List RawModel) (i : ℕ) (h : i < data.length),
    (normalizeModels (data.take (i + 1)) = normalizeModels (data.take i)
      ↔ specSkipC3 (data.take i) (data.get ⟨i, h⟩))

/-- Counterexample to C3: in the batch `[cRec1, cRec2]` the second record's
id was already seen earlier (so the claim requires it to emit nothing, and
requires that among records sharing an id only the first survives), but
the source only marks ids of records it actually pushes, so the
zero-priced first record leaves no trace and the second one is emitted. -/
theorem c3_counterexample : ¬ claim3Statement := by
  intro h
  have h2 := (h [cRec1, cRec2] 1 (by decide)).2
    (Or.inr (Or.inl ⟨cRec1, List.mem_singleton_self cRec1, rfl⟩))
  exact List.cons_ne_nil (mkModel cRec2) [] h2

/-- C3 amended: a record is skipped exactly when its parsed per-token
prices are both zero (which is what the source tests, not the rounded
per-million values), or its id matches a previously emitted model (ids of
records skipped earlier are not remembered), or it carries the
`"openrouter/"` prefix; every other record appends exactly one model. -/
theorem c3_normalizer_emission :
    ∀ (data : List RawModel) (i : ℕ) (h : i < data.length),
      normalizeModels (data.take (i + 1)) =
        (if parsePrice (data.get ⟨i, h⟩).prompt = some 0
            ∧ parsePrice (data.get ⟨i, h⟩).completion = some 0 then
          normalizeModels (data.take i)
        else if ((normalizeModels (data.take i)).map Model.id).contains
            (data.get ⟨i, h⟩).id then
          normalizeModels (data.take i)
        else if strStarts "openrouter/" (data.get ⟨i, h⟩).id then
          normalizeModels (data.take i)
        else normalizeModels (data.take i) ++ [mkModel (data.get ⟨i, h⟩)]) := by
  intro data i h
  rw [show data.take (i + 1) = data.take i ++ [data.get ⟨i, h⟩] from by
    rw [List.take_succ, List.getElem?_eq_getElem h]
    simp]
  simp only [normalizeModels, List.foldl_append, List.foldl_cons, List.foldl_nil]
  rfl

/-- Witness for C3 amended, at the two-record batch: the second record is
appended because the skipped first record left the seen set empty. -/
theorem c3_normalizer_emission_witness :
    normalizeModels [cRec1, cRec2] =
      (if parsePrice cRec2.prompt = some 0 ∧ parsePrice cRec2.completion = some 0 then
        normalizeModels [cRec1]
      else if ((normalizeModels [cRec1]).map Model.id).contains cRec2.id then
        normalizeModels [cRec1]
      else if strStarts "openrouter/" cRec2.id then normalizeModels [cRec1]
      else normalizeModels [cRec1] ++ [mkModel cRec2]) :=
  c3_normalizer_emission [cRec1, cRec2] 1 (by decide)

theorem qfloor_eq_floor (q : ℚ) : qfloor q = ⌊q⌋ := by
  rw [Rat.floor_def]
  rfl

theorem round4_zero : round4 0 = 0 := by
  have h1 : (0 : ℚ) * 10000 + 1/2 = 1/2 := by norm_num
  rw [round4, h1, qfloor_eq_floor]
  norm_num

/-- The per-million price claimed by C4 for one raw price field: multiply
the parsed per-token decimal by one million and round to four decimal
places, with absent/null/unparseable fields treated as zero. -/
def specPriceC4 : PriceField → ℚ
  | .absent => 0
  | .junk => 0
  | .num q => round4 (q * 1000000)

/-- Claim C4 as stated, for the models a single raw record normalises to:
each per-million price equals the rounded product, and absent or
unparseable fields yield price 0 (never NaN). -/
def claim4Statement : Prop :=
  ∀ (r : RawModel) (mm : Model), mm ∈ normalizeModels [r] →
    mm.input = some (specPriceC4 r.prompt) ∧ mm.output = some (specPriceC4 r.completion)

/-- A raw record whose prompt price string is unparseable junk. -/
def cRec3 : RawModel := { id := "a/y", prompt := .junk }

/-- Counterexample to C4: `parseFloat` of a non-empty unparseable string is
NaN, not 0 — `"x" || "0"` only substitutes `"0"` for falsy values — so the
emitted model's input price is NaN where the claim requires 0. -/
theorem c4_counterexample : ¬ claim4Statement := by
  intro h
  have h2 := (h cRec3 (mkModel cRec3) (List.mem_singleton_self (mkModel cRec3))).1
  exact Option.noConfusion h2

/-- C4 amended: for every emitted model, each per-million price is the
parsed per-token decimal times one million rounded to four decimal places,
with absent/null/empty fields treated as 0, but a non-empty string that
`parseFloat` cannot parse yields NaN (`none`), not 0. -/
theorem c4_price_conversion :
    ∀ (r : RawModel) (mm : Model), mm ∈ normalizeModels [r] →
      (mm.input = match r.prompt with
        | .absent => some 0
        | .num q => some (round4 (q * 1000000))
        | .junk => none)
      ∧ (mm.output = match r.completion with
        | .absent => some 0
        | .num q => some (round4 (q * 1000000))
        | .junk => none) := by
  intro r mm hm
  have hmm : mm = mkModel r := by
    simp only [normalizeModels, List.foldl_cons, List.foldl_nil, normAcc] at hm
    split_ifs at hm with h1 h2 h3
    · exact absurd hm (List.not_mem_nil mm)
    · exact absurd hm (List.not_mem_nil mm)
    · exact absurd hm (List.not_mem_nil mm)
    · simpa using hm
  subst hmm
  constructor
  · cases hp : r.prompt <;>
      simp [mkModel, perMillion, parsePrice, hp, round4_zero]
  · cases hp : r.completion <;>
      simp [mkModel, perMillion, parsePrice, hp, round4_zero]

/-- Witness for C4 amended at a record with a junk prompt field and a
priced completion field. -/
theorem c4_price_conversion_witness :
    ((mkModel { id := "a/z", prompt := .junk, completion := .num 2 } : Model).input
        = none)
    ∧ ((mkModel { id := "a/z", prompt := .junk, completion := .num 2 } : Model).output
        = some (round4 (2 * 1000000))) :=
  c4_price_conversion { id := "a/z", prompt := .junk, completion := .num 2 }
    (mkModel { id := "a/z", prompt := .junk, completion := .num 2 })
    (List.mem_singleton_self _)

/-- C6: the normalised list is sorted by provider name ascending, then by
input price ascending, and the sort is stable: models with equal provider
and equal input price keep their relative input order.  The hypothesis
restricts to numeric (non-NaN) input prices, the only case in which "input
ascending" is meaningful. -/
theorem c6_sort_two_key_stable :
    ∀ (ms : List Model), (∀ m ∈ ms, m.input.isSome = true) →
      (List.Pairwise (fun a b =>
          strLt a.provider b.provider = true
          ∨ (a.provider = b.provider ∧ optLe a.input b.input = true))
        (sortModels ms))
      ∧ (∀ (P : String) (q : ℚ),
          (sortModels ms).filter
              (fun m => decide (m.provider = P) && decide (m.input = some q))
            = ms.filter
              (fun m => decide (m.provider = P) && decide (m.input = some q))) := by
  intro ms hnum
  constructor
  · have hcong : sortModels ms
        = ms.insertionSort (fun a b => cleanModelLe a b = true) := by
      unfold sortModels
      refine insertionSort_congr ms (fun a ha b hb => ?hiff)
      obtain ⟨ia, hia⟩ := Option.isSome_iff_exists.1 (hnum a ha)
      obtain ⟨ib, hib⟩ := Option.isSome_iff_exists.1 (hnum b hb)
      simp [jsModelLe, cleanModelLe, jsNumLe, optLe, hia, hib]
    rw [hcong]
    have hsorted :=
      List.sorted_insertionSort (fun a b : Model => cleanModelLe a b = true) ms
    refine hsorted.imp ?himp
    intro a b hab
    by_cases hp : a.provider = b.provider
    · refine Or.inr ⟨hp, ?hle⟩
      rw [cleanModelLe, if_pos hp] at hab
      exact hab
    · refine Or.inl ?hlt
      rw [cleanModelLe, if_neg hp] at hab
      exact hab
  · intro P q
    unfold sortModels
    refine insertionSort_filter_stable _ ms (fun a ha b hb hpa hpb => ?hkey)
    simp only [Bool.and_eq_true, decide_eq_true_eq] at hpa hpb
    simp [jsModelLe, hpa.1, hpb.1, hpa.2, hpb.2, jsNumLe]

/-- Witness for C6 at a concrete two-model list with out-of-order
providers. -/
theorem c6_sort_two_key_stable_witness :
    (List.Pairwise (fun a b =>
        strLt a.provider b.provider = true
        ∨ (a.provider = b.provider ∧ optLe a.input b.input = true))
      (sortModels
        [{ id := "b/x", provider := "b", name := "x", input := some 2 },
         { id := "a/y", provider := "a", name := "y", input := some 1 }]))
    ∧ (∀ (P : String) (q : ℚ),
        (sortModels
            [{ id := "b/x", provider := "b", name := "x", input := some 2 },
             { id := "a/y", provider := "a", name := "y", input := some 1 }]).filter
            (fun m => decide (m.provider = P) && decide (m.input = some q))
          = List.filter
              (fun m => decide (m.provider = P) && decide (m.input = some q))
              [{ id := "b/x", provider := "b", name := "x", input := some 2 },
               { id := "a/y", provider := "a", name := "y", input := some 1 }]) :=
  c6_sort_two_key_stable
    [{ id := "b/x", provider := "b", name := "x", input := some 2 },
     { id := "a/y", provider := "a", name := "y", input := some 1 }]
    (by decide)

/-- The 1:1-weighted cost key minimised by the cost-ranked best-for
categories, read off a model with numeric prices. -/
def modelCostSum (m : Model) : ℚ := (jsAdd m.input m.output).getD 0

theorem insertionSort_eq_nil_iff {α : Type} {r : α → α → Prop} [DecidableRel r]
    (l : List α) : l.insertionSort r = [] ↔ l = [] := by
  constructor
  · intro h
    have hperm := List.perm_insertionSort r l
    rw [h] at hperm
    exact hperm.symm.eq_nil
  · intro h
    subst h
    rfl

/-- C7: in the best-for ranking, every cost-ranked category selects a model
minimising `input + output` — an unweighted 1:1 sum over the qualifying
models; the selection function takes no token counts at all, so it is
independent of them.  The two "biggest" categories maximise `context`
respectively `maxOutput`, whose unknown values are the number 0 and hence
minimal.  A category with zero qualifying models yields `none`
("no result") instead of failing. -/
theorem c7_best_for_selection :
    (∀ (f : Model → Bool), f ∈ costCategoryFilters → ∀ (ms : List Model),
      (∀ m ∈ ms, m.input.isSome = true ∧ m.output.isSome = true) →
      ((bestBy costSumLe f ms = none ↔ ms.filter f = [])
        ∧ ∀ b, bestBy costSumLe f ms = some b →
            b ∈ ms.filter f ∧ ∀ m ∈ ms.filter f, modelCostSum b ≤ modelCostSum m))
    ∧ (∀ ms : List Model,
        (bestBy ctxGe (fun _ => true) ms = none ↔ ms = [])
        ∧ ∀ b, bestBy ctxGe (fun _ => true) ms = some b →
            b ∈ ms ∧ ∀ m ∈ ms, m.context ≤ b.context)
    ∧ (∀ ms : List Model,
        (bestBy maxOutGe (fun _ => true) ms = none ↔ ms = [])
        ∧ ∀ b, bestBy maxOutGe (fun _ => true) ms = some b →
            b ∈ ms ∧ ∀ m ∈ ms, m.maxOutput ≤ b.maxOutput) := by
  refine ⟨?cost, ?ctx, ?mx⟩
  · intro f hf ms hnum
    have hnum2 : ∀ m ∈ ms.filter f, m.input.isSome = true ∧ m.output.isSome = true :=
      fun m hm => hnum m (List.mem_of_mem_filter hm)
    have hcong : (ms.filter f).insertionSort (fun a b => costSumLe a b = true)
        = (ms.filter f).insertionSort (fun a b => costCleanLe a b = true) := by
      refine insertionSort_congr _ (fun a ha b hb => ?hiff)
      obtain ⟨ia, hia⟩ := Option.isSome_iff_exists.1 (hnum2 a ha).1
      obtain ⟨oa, hoa⟩ := Option.isSome_iff_exists.1 (hnum2 a ha).2
      obtain ⟨ib, hib⟩ := Option.isSome_iff_exists.1 (hnum2 b hb).1
      obtain ⟨ob2, hob⟩ := Option.isSome_iff_exists.1 (hnum2 b hb).2
      simp [costSumLe, costCleanLe, jsAdd, jsNumLe, optLe, hia, hoa, hib, hob]
    constructor
    · rw [bestBy, List.head?_eq_none_iff, insertionSort_eq_nil_iff]
    · intro b hb
      rw [bestBy, hcong] at hb
      have hmin := insertionSort_head_min hb
      refine ⟨hmin.1, fun m hm => ?hle⟩
      rcases hmin.2 m hm with he | hle
      · rw [he]
      · obtain ⟨ib, hib⟩ := Option.isSome_iff_exists.1 (hnum2 b hmin.1).1
        obtain ⟨ob2, hob⟩ := Option.isSome_iff_exists.1 (hnum2 b hmin.1).2
        obtain ⟨im, him⟩ := Option.isSome_iff_exists.1 (hnum2 m hm).1
        obtain ⟨om, hom⟩ := Option.isSome_iff_exists.1 (hnum2 m hm).2
        simp only [costCleanLe, jsAdd, optLe, hib, hob, him, hom,
          decide_eq_true_eq] at hle
        simp only [modelCostSum, jsAdd, hib, hob, him, hom, Option.getD_some]
        exact hle
  · intro ms
    constructor
    · rw [bestBy, List.head?_eq_none_iff, insertionSort_eq_nil_iff, List.filter_true]
    · intro b hb
      rw [bestBy] at hb
      have hmin := insertionSort_head_min hb
      rw [List.filter_true] at hmin
      refine ⟨hmin.1, fun m hm => ?hctx⟩
      rcases hmin.2 m hm with he | hle
      · rw [he]
      · simpa [ctxGe] using hle
  · intro ms
    constructor
    · rw [bestBy, List.head?_eq_none_iff, insertionSort_eq_nil_iff, List.filter_true]
    · intro b hb
      rw [bestBy] at hb
      have hmin := insertionSort_head_min hb
      rw [List.filter_true] at hmin
      refine ⟨hmin.1, fun m hm => ?hmx⟩
      rcases hmin.2 m hm with he | hle
      · rw [he]
      · simpa [maxOutGe] using hle

/-- Witness for C7: the "cheapest overall" category over a singleton list,
and the two "biggest" categories over the same list. -/
theorem c7_best_for_selection_witness :
    ((bestBy costSumLe (fun _ => true)
        ([{ id := "a/y", provider := "a", name := "y", input := some 1, output := some 2 }]
          : List Model)
        = none
      ↔ List.filter (fun _ => true)
          ([{ id := "a/y", provider := "a", name := "y", input := some 1, output := some 2 }]
            : List Model)
        = [])
      ∧ ∀ b, bestBy costSumLe (fun _ => true)
          ([{ id := "a/y", provider := "a", name := "y", input := some 1, output := some 2 }]
            : List Model)
          = some b →
        b ∈ List.filter (fun _ => true)
            ([{ id := "a/y", provider := "a", name := "y", input := some 1, output := some 2 }]
              : List Model)
        ∧ ∀ m ∈ List.filter (fun _ => true)
            ([{ id := "a/y", provider := "a", name := "y", input := some 1, output := some 2 }]
              : List Model),
            modelCostSum b ≤ modelCostSum m) :=
  c7_best_for_selection.1 (fun _ => true) (List.mem_cons_self _ _)
    [{ id := "a/y", provider := "a", name := "y", input := some 1, output := some 2 }]
    (by decide)
